import Mathlib

/-!
Shallow embedding of the order-sizing and execution-dispatch engine of the
`ai-hedge-fund-crypto` repository (files `src/gateway/order_executor.py` and
`src/graph/order_execution_node.py`).

Python floats are idealised as exact rationals (`ℚ`); decimal string
formatting is modelled by a pair of the produced string together with the
rational it parses back to, so that `float(formatted_quantity)` is the second
component.  Exceptions are modelled with `Except`; the Binance client is an
injected environment, and every client invocation is recorded in a call list.
-/

attribute [local semireducible] Rat.mul Rat.inv Rat.add Rat.sub Rat.ofScientific

namespace AHF

/-- Truncation toward zero, the behaviour of Python `int()` on a float. -/
def ratTrunc (q : ℚ) : ℤ := if 0 ≤ q then ⌊q⌋ else -⌊-q⌋

/-- Round-half-to-even, the rounding used by Python `round()` and by `format`
of a float to a fixed number of decimals. -/
def roundHalfEven (x : ℚ) : ℤ :=
  let f := ⌊x⌋
  let r := x - (f : ℚ)
  if r < 1/2 then f
  else if 1/2 < r then f + 1
  else if f % 2 = 0 then f else f + 1

/-- Multiplicity of the factor `p` in `n` (fuelled so that it evaluates in the
kernel; fuel `n` always suffices). -/
def countFactorsAux : ℕ → ℕ → ℕ → ℕ
  | 0, _, _ => 0
  | fuel + 1, p, n => if 2 ≤ p ∧ 0 < n ∧ p ∣ n then countFactorsAux fuel p (n / p) + 1 else 0

/-- Multiplicity of the factor `p` in `n`. -/
def countFactors (p n : ℕ) : ℕ := countFactorsAux n p n

/-- Number of base-10 digits of `n` (1 for `n = 0`), fuelled so that it
evaluates in the kernel. -/
def numDigits10Aux : ℕ → ℕ → ℕ
  | 0, _ => 0
  | fuel + 1, n => if n < 10 then 1 else numDigits10Aux fuel (n / 10) + 1

/-- Number of base-10 digits of `n` (1 for `n = 0`). -/
def numDigits10 (n : ℕ) : ℕ := numDigits10Aux (n + 1) n

/-- The least `p` with `q * 10 ^ p` integral, i.e. the number of digits after
the decimal point of the exact decimal representation of `q` (for `q` whose
denominator divides a power of ten), computed from the 2- and 5-adic
valuations of the denominator. -/
def decFracDigits (q : ℚ) : ℕ := max (countFactors 2 q.den) (countFactors 5 q.den)

/-- The code derives the formatting precision as
`len(str(step_size).split('.')[-1].rstrip('0'))` on a float
(order_executor.py line 117).  This models that string computation for a
nonnegative value with an exact decimal representation (the idealisation used
throughout: a rational stands for the float whose shortest repr is that
decimal).  Writing `q = N / 10 ^ p` in lowest decimal terms (`N` with `d`
digits, not divisible by ten) and `e = p + 1 - d`:

* for `q ≥ 1e-4` (and `q = 0`), `str` uses fixed notation `"0.…N"` whose
  fractional part has no trailing zeros, so the length is `p`;
* for `0 < q < 1e-4` (that is, `e ≥ 5`), `str` uses scientific notation
  `"M.Fe-EE"`: `split('.')[-1]` keeps the whole string when the mantissa is a
  single digit and only `"Fe-EE"` otherwise, and `rstrip('0')` removes the
  trailing zeros of the zero-padded (width ≥ 2) exponent `EE`, giving
  `(if d = 1 then 1 else d - 1) + 2 + max 2 (digits e) - (trailing zeros of
  e)` — e.g. `1e-06 ↦ 5`, `7.5e-06 ↦ 5`, `1.25e-05 ↦ 6`, `1e-10 ↦ 4`, so the
  derived precision there is smaller than the true digit count `p`. -/
def pyFracDigits (q : ℚ) : ℕ :=
  let p := decFracDigits q
  let d := numDigits10 (q * 10 ^ p).num.natAbs
  if 5 ≤ p + 1 - d then
    (if d = 1 then 1 else d - 1) + 2 + max 2 (numDigits10 (p + 1 - d))
      - countFactors 10 (p + 1 - d)
  else p

/-- `q` is an integer. -/
def IsInt (q : ℚ) : Prop := ∃ z : ℤ, q = (z : ℚ)

/-- Numeric value obtained by formatting `q` with `p` decimal places and
parsing the result back, i.e. `float(f"{q:.pf}")`. -/
def fixedVal (q : ℚ) (p : ℕ) : ℚ := (roundHalfEven (q * 10 ^ p) : ℚ) / 10 ^ p

/-- Left-pad a digit string with zeros to width `p`. -/
def padZeros (s : String) (p : ℕ) : String :=
  (List.replicate (p - s.length) '0').asString ++ s

/-- Remove every trailing occurrence of `c`, Python `str.rstrip(c)`. -/
def rstripChar (c : Char) (s : String) : String :=
  ((s.toList.reverse.dropWhile (fun x => x == c)).reverse).asString

/-- Python `.rstrip('0').rstrip('.')` applied after fixed-point formatting. -/
def stripTail (s : String) : String := rstripChar '.' (rstripChar '0' s)

/-- The string produced by Python `f"{q:.pf}"`: fixed-point decimal notation
with exactly `p` digits after the point, rounding half to even. -/
def decStr (q : ℚ) (p : ℕ) : String :=
  let n := roundHalfEven (q * 10 ^ p)
  let sign := if n < 0 then "-" else ""
  let a := n.natAbs
  if p = 0 then sign ++ toString a
  else sign ++ toString (a / 10 ^ p) ++ "." ++ padZeros (toString (a % 10 ^ p)) p

example : decStr (1/2) 8 = "0.50000000" := by decide
example : stripTail (decStr (1/100) 3) = "0.01" := by decide
example : decStr (5/1) 0 = "5" := by decide
example : ratTrunc (3/2) = 1 := by decide
example : roundHalfEven (5/2) = 2 := by decide
example : roundHalfEven (7/2) = 4 := by decide
example : pyFracDigits (1/1000) = 3 := by decide
example : pyFracDigits (1/40) = 3 := by decide
example : pyFracDigits 0 = 0 := by decide
example : pyFracDigits (1/10000) = 4 := by decide
example : pyFracDigits (1/100000) = 5 := by decide
example : pyFracDigits (1/100000000) = 5 := by decide
example : pyFracDigits (75/10000000) = 5 := by decide
example : pyFracDigits (125/10000000) = 6 := by decide
example : pyFracDigits (1/10000000000) = 4 := by decide
example : pyFracDigits (9999/100000000) = 7 := by decide

/-! ## Exchange data model (`_get_symbol_info`, symbol filters, client environment) -/

/-- One entry of a symbol's `filters` list: the loop in `_format_quantity`
keeps the last `LOT_SIZE` filter and the last of `NOTIONAL`/`MIN_NOTIONAL`
(both assign the same local).  A `NOTIONAL`-family filter may lack the
`minNotional` key, which `filter_info.get('minNotional', 0.0)` defaults to 0. -/
inductive FilterInfo where
  | lotSize (stepSize minQty : ℚ)
  | notional (minNotional : Option ℚ)
  | minNotionalF (minNotional : Option ℚ)
  | other
deriving DecidableEq

/-- Per-symbol exchange metadata record, as found in `get_exchange_info()['symbols']`. -/
structure SymbolInfo where
  symbol : String
  filters : List FilterInfo
deriving DecidableEq

/-- The fields of an order response dict the executor reads
(`orderId`, `clientOrderId`, `status`, `fills`). -/
structure BinanceOrder where
  orderId : Option ℕ
  clientOrderId : Option String
  status : Option String
  fills : List String
deriving DecidableEq

/-- A recorded invocation of the Binance client. -/
inductive ApiCall where
  | getExchangeInfo
  | getSymbolTicker (symbol : String)
  | orderMarketBuy (symbol : String) (quantity : String)
  | orderMarketSell (symbol : String) (quantity : String)
  | createMarginOrder (symbol : String) (side : String) (typ : String)
      (quantity : String) (isIsolated : String)
deriving DecidableEq

/-- The injected exchange-client capability: the outcome of each client call.
An `Except.error` models the call raising an exception with that message. -/
structure ExchangeEnv where
  exchangeInfo : Except String (List SymbolInfo)
  tickerPrice : String → Except String ℚ
  marketBuy : String → String → Except String BinanceOrder
  marketSell : String → String → Except String BinanceOrder
  marginOrder : String → String → String → String → String → Except String BinanceOrder

/-- The executor's `_symbol_info_cache`. -/
abbrev Cache := List (String × SymbolInfo)

/-- Lookup in the symbol-info cache (`symbol not in self._symbol_info_cache`). -/
def cacheLookup : Cache → String → Option SymbolInfo
  | [], _ => none
  | (s, si) :: rest, t => if s = t then some si else cacheLookup rest t

/-- The pure outcome of an uncached `_get_symbol_info` lookup: scan
`exchange_info['symbols']` for the symbol, else raise
`ValueError(f"Symbol {symbol} not found")`; an exchange-info API failure
is re-raised. -/
def lookupSymbol (env : ExchangeEnv) (symbol : String) : Except String SymbolInfo :=
  match env.exchangeInfo with
  | .error e => .error e
  | .ok symbols =>
    match symbols.find? (fun s => s.symbol == symbol) with
    | some si => .ok si
    | none => .error ("Symbol " ++ symbol ++ " not found")

/-- `_get_symbol_info` (order_executor.py lines 38-53): consult the cache;
on a miss call `get_exchange_info`, cache the symbol's record when found,
raise (without caching) when absent or when the API call fails. -/
def getSymbolInfo (env : ExchangeEnv) (cache : Cache) (symbol : String) :
    Except String SymbolInfo × Cache × List ApiCall :=
  match cacheLookup cache symbol with
  | some si => (.ok si, cache, [])
  | none =>
    match env.exchangeInfo with
    | .error e => (.error e, cache, [.getExchangeInfo])
    | .ok symbols =>
      match symbols.find? (fun s => s.symbol == symbol) with
      | some si => (.ok si, (symbol, si) :: cache, [.getExchangeInfo])
      | none => (.error ("Symbol " ++ symbol ++ " not found"), cache, [.getExchangeInfo])

/-! ## Quantity normalizer (`_format_quantity`, order_executor.py lines 55-146) -/

/-- The filter scan (lines 60-70): a left fold in which a later `LOT_SIZE`
overwrites the lot slot and a later `NOTIONAL` or `MIN_NOTIONAL` overwrites
the shared notional slot. -/
def scanFilters (filters : List FilterInfo) : Option (ℚ × ℚ) × Option (Option ℚ) :=
  filters.foldl
    (fun acc f =>
      match f with
      | .lotSize step mq => (some (step, mq), acc.2)
      | .notional mn => (acc.1, some mn)
      | .minNotionalF mn => (acc.1, some mn)
      | .other => acc)
    (none, none)

/-- `min_notional = float(notional_filter.get('minNotional', 0.0))` if a
notional filter was found, else the initial `0.0` (lines 77-79). -/
def optMinNotional : Option (Option ℚ) → ℚ
  | some (some v) => v
  | some none => 0
  | none => 0

/-- Lines 93-95: `min_qty_for_notional = min_notional / current_price` when
both are positive, else the initial `0.0`. -/
def minQtyForNotional (minNotional currentPrice : ℚ) : ℚ :=
  if 0 < minNotional ∧ 0 < currentPrice then minNotional / currentPrice else 0

/-- Lines 101-103: raise the quantity to the effective minimum when below it. -/
def raiseToMin (quantity effMin : ℚ) : ℚ :=
  if quantity < effMin then effMin else quantity

/-- Lines 106-107: `quantity = round(quantity / step_size) * step_size`
when `step_size > 0` (Python `round` is half-to-even). -/
def snapToStep (quantity step : ℚ) : ℚ :=
  if 0 < step then (roundHalfEven (quantity / step) : ℚ) * step else quantity

/-- Fuel that provably suffices for the notional-correction loop to reach its
exit condition (the Python loop is an unbounded `while`; the fuel is a proof
device, shown unreachable in `notionalLoopAux_post`). -/
def loopFuel (q price target incr : ℚ) : ℕ :=
  (⌈(target - q * price) / (incr * price)⌉).toNat + 1

/-- Lines 110-112: `while quantity * current_price < min_notional * 1.001:
quantity += step_size if step_size > 0 else 0.1`.  Returns the final quantity
together with the number of iterations executed. -/
def notionalLoopAux : ℕ → ℚ → ℚ → ℚ → ℚ → ℚ × ℕ
  | 0, q, _, _, _ => (q, 0)
  | fuel + 1, q, price, target, incr =>
    if q * price < target then
      let r := notionalLoopAux fuel (q + incr) price target incr
      (r.1, r.2 + 1)
    else (q, 0)

/-- The guarded notional-correction step: the loop body runs only under
`min_notional > 0 and current_price > 0` (line 110). -/
def notionalStep (minNotional price step : ℚ) (q : ℚ) : ℚ × ℕ :=
  if 0 < minNotional ∧ 0 < price then
    notionalLoopAux
      (loopFuel q price (minNotional * (1001/1000)) (if 0 < step then step else 1/10))
      q price (minNotional * (1001/1000)) (if 0 < step then step else 1/10)
  else (q, 0)

/-- Lines 115-117: decimal precision derived from the step size; `0` whenever
`step_size < 1` fails, and the repr-string-derived length computed by
`len(str(step_size).split('.')[-1].rstrip('0'))` otherwise (`pyFracDigits`,
including its scientific-notation behaviour below `1e-4`). -/
def pyPrecision (step : ℚ) : ℕ :=
  if step < 1 then pyFracDigits step else 0

/-- Lines 123-126: the final string, with the rational it parses back to.
Precision `0` is `str(int(quantity))` (truncation toward zero); otherwise
`f"{quantity:.pf}".rstrip('0').rstrip('.')`, whose numeric value is
`fixedVal quantity p` (stripping trailing zeros does not change the value). -/
def fmtMain (q : ℚ) (p : ℕ) : String × ℚ :=
  if p = 0 then (toString (ratTrunc q), ((ratTrunc q : ℤ) : ℚ))
  else (stripTail (decStr q p), fixedVal q p)

/-- The quantity after the minimum raise, the step snap and the notional
loop — the value of the local `quantity` at line 130. -/
def adjustedQty (step minQty minNotional price quantity : ℚ) : ℚ :=
  (notionalStep minNotional price step
    (snapToStep
      (raiseToMin quantity (max minQty (minQtyForNotional minNotional price)))
      step)).1

/-- The final-validation condition of lines 131-135: the order value computed
from the parsed formatted string is still below the minimum notional, so the
code raises `ValueError`. -/
def guardFires (step minQty minNotional price quantity : ℚ) : Prop :=
  0 < minNotional ∧ 0 < price ∧
    (fmtMain (adjustedQty step minQty minNotional price quantity) (pyPrecision step)).2
      * price < minNotional

instance (step minQty minNotional price quantity : ℚ) :
    Decidable (guardFires step minQty minNotional price quantity) := by
  unfold guardFires; infer_instance

/-- The body of `_format_quantity` from line 72 on, given the extracted lot
filter values, the notional minimum and the current price (already `0.0` when
the ticker call failed).  The `ValueError` raised by the final validation is
caught by the function's own `except` (lines 143-146), which returns the
8-decimal formatting of the partially adjusted local `quantity`. -/
def normalizeCore (step minQty minNotional price quantity : ℚ) : String × ℚ :=
  if 0 < minNotional ∧ 0 < price ∧
      (fmtMain (adjustedQty step minQty minNotional price quantity) (pyPrecision step)).2
        * price < minNotional then
    (decStr (adjustedQty step minQty minNotional price quantity) 8,
      fixedVal (adjustedQty step minQty minNotional price quantity) 8)
  else fmtMain (adjustedQty step minQty minNotional price quantity) (pyPrecision step)

/-- The string/value outcome of `_format_quantity` as a function of the
`_get_symbol_info` outcome (lines 55-146).  An exception from
`_get_symbol_info` is caught by the outer handler and yields the 8-decimal
fallback of the unmodified input quantity; a missing `LOT_SIZE` filter takes
the explicit default branch (lines 138-141); a failing
`get_symbol_ticker` is caught at lines 86-87, leaving `current_price = 0.0`. -/
def formatQuantityRes (env : ExchangeEnv) (info : Except String SymbolInfo)
    (symbol : String) (quantity : ℚ) : String × ℚ :=
  match info with
  | .error _ => (decStr quantity 8, fixedVal quantity 8)
  | .ok si =>
    match scanFilters si.filters with
    | (none, _) => (decStr quantity 8, fixedVal quantity 8)
    | (some (step, minQty), notl) =>
      let price : ℚ := match env.tickerPrice symbol with | .ok p => p | .error _ => 0
      normalizeCore step minQty (optMinNotional notl) price quantity

/-- Whether the lot-filter branch is taken, in which case `get_symbol_ticker`
is invoked (line 84). -/
def tickerCalled (info : Except String SymbolInfo) : Bool :=
  match info with
  | .ok si => (scanFilters si.filters).1.isSome
  | .error _ => false

/-- `_format_quantity(symbol, quantity)` (lines 55-146).  Returns the
produced string together with its parsed value, the updated symbol-info
cache, and the list of client calls made. -/
def formatQuantity (env : ExchangeEnv) (cache : Cache) (symbol : String) (quantity : ℚ) :
    (String × ℚ) × Cache × List ApiCall :=
  let gi := getSymbolInfo env cache symbol
  (formatQuantityRes env gi.1 symbol quantity, gi.2.1,
    gi.2.2 ++ (if tickerCalled gi.1 then [.getSymbolTicker symbol] else []))

example : normalizeCore (1/100000000) (1/10000000) 0 0 (1/100000000) = ("0", 0) := by decide
example : normalizeCore (75/10000000) 0 0 0 (75/10000000) = ("0.00001", 1/100000) := by decide

/-! ## Execution dispatcher (`execute_decision` and `OrderExecutionNode.__call__`) -/

/-- A trading decision for one ticker. -/
structure Decision where
  action : String
  quantity : ℚ
  confidence : ℚ
deriving DecidableEq

/-- One per-ticker result dict.  The Python dicts are heterogeneous: the
live-mode dicts carry the ticker and a formatted quantity string, the
simulation dicts carry the raw numeric quantity and no ticker key; absent
keys are `none`. -/
structure ExecResult where
  ticker : Option String
  action : Option String
  executed : Bool
  orderId : Option ℕ
  clientOrderId : Option String
  quantityStr : Option String
  quantityNum : Option ℚ
  status : Option String
  fills : Option (List String)
  reason : Option String
  error : Option String
deriving DecidableEq

/-- Result for `action == "hold" or quantity <= 0` (lines 166-172; the action
reported is the literal `"hold"`). -/
def skipResult (ticker : String) : ExecResult :=
  ⟨some ticker, some "hold", false, none, none, none, none, none, none,
    some "No action required or invalid quantity", none⟩

/-- Result for an unrecognised action (lines 183-189). -/
def unknownResult (ticker action : String) : ExecResult :=
  ⟨some ticker, some action, false, none, none, none, none, none, none,
    some ("Unknown action: " ++ action), none⟩

/-- Result for a per-ticker exception caught at lines 191-198. -/
def errorResult (ticker action msg : String) : ExecResult :=
  ⟨some ticker, some action, false, none, none, none, none, none, none, none, some msg⟩

/-- Successful submission result (e.g. lines 221-230). -/
def orderResult (ticker action fq : String) (o : BinanceOrder) : ExecResult :=
  ⟨some ticker, some action, true, o.orderId, o.clientOrderId, some fq, none,
    o.status, some o.fills, none, none⟩

/-- `_execute_buy_order` (lines 200-237): format, reject a non-positive parsed
quantity with `ValueError(f"Invalid quantity: {formatted_quantity}")`, then
submit `order_market_buy`; client exceptions are re-raised. -/
def executeBuyOrder (env : ExchangeEnv) (cache : Cache) (ticker : String) (quantity : ℚ) :
    Except String ExecResult × Cache × List ApiCall :=
  let f := formatQuantity env cache ticker quantity
  let fq := f.1.1
  if f.1.2 ≤ 0 then (.error ("Invalid quantity: " ++ fq), f.2.1, f.2.2)
  else
    match env.marketBuy ticker fq with
    | .ok o => (.ok (orderResult ticker "buy" fq o), f.2.1, f.2.2 ++ [.orderMarketBuy ticker fq])
    | .error e => (.error e, f.2.1, f.2.2 ++ [.orderMarketBuy ticker fq])

/-- `_execute_sell_order` (lines 239-268): format, submit `order_market_sell`;
client exceptions are re-raised.  There is no non-positive-quantity check. -/
def executeSellOrder (env : ExchangeEnv) (cache : Cache) (ticker : String) (quantity : ℚ) :
    Except String ExecResult × Cache × List ApiCall :=
  let f := formatQuantity env cache ticker quantity
  let fq := f.1.1
  match env.marketSell ticker fq with
  | .ok o => (.ok (orderResult ticker "sell" fq o), f.2.1, f.2.2 ++ [.orderMarketSell ticker fq])
  | .error e => (.error e, f.2.1, f.2.2 ++ [.orderMarketSell ticker fq])

/-- `_execute_short_order` (lines 270-303): cross-margin market sell
(`side="SELL"`, `type="MARKET"`, `isIsolated="FALSE"`). -/
def executeShortOrder (env : ExchangeEnv) (cache : Cache) (ticker : String) (quantity : ℚ) :
    Except String ExecResult × Cache × List ApiCall :=
  let f := formatQuantity env cache ticker quantity
  let fq := f.1.1
  match env.marginOrder ticker "SELL" "MARKET" fq "FALSE" with
  | .ok o => (.ok (orderResult ticker "short" fq o), f.2.1,
      f.2.2 ++ [.createMarginOrder ticker "SELL" "MARKET" fq "FALSE"])
  | .error e => (.error e, f.2.1, f.2.2 ++ [.createMarginOrder ticker "SELL" "MARKET" fq "FALSE"])

/-- `_execute_cover_order` (lines 305-338): cross-margin market buy
(`side="BUY"`, `type="MARKET"`, `isIsolated="FALSE"`). -/
def executeCoverOrder (env : ExchangeEnv) (cache : Cache) (ticker : String) (quantity : ℚ) :
    Except String ExecResult × Cache × List ApiCall :=
  let f := formatQuantity env cache ticker quantity
  let fq := f.1.1
  match env.marginOrder ticker "BUY" "MARKET" fq "FALSE" with
  | .ok o => (.ok (orderResult ticker "cover" fq o), f.2.1,
      f.2.2 ++ [.createMarginOrder ticker "BUY" "MARKET" fq "FALSE"])
  | .error e => (.error e, f.2.1, f.2.2 ++ [.createMarginOrder ticker "BUY" "MARKET" fq "FALSE"])

/-- Convert an order-helper outcome into `execute_decision`'s result: an
exception is caught at lines 191-198 and becomes `executed=False` with
`error=str(e)`. -/
def liftOrderOutcome (ticker action : String)
    (x : Except String ExecResult × Cache × List ApiCall) : ExecResult × Cache × List ApiCall :=
  ((match x.1 with
    | .ok r => r
    | .error e => errorResult ticker action e), x.2.1, x.2.2)

/-- `execute_decision(ticker, decision)` (lines 148-198). -/
def executeDecision (env : ExchangeEnv) (cache : Cache) (ticker : String) (d : Decision) :
    ExecResult × Cache × List ApiCall :=
  if d.action = "hold" ∨ d.quantity ≤ 0 then (skipResult ticker, cache, [])
  else if d.action = "buy" then
    liftOrderOutcome ticker "buy" (executeBuyOrder env cache ticker d.quantity)
  else if d.action = "sell" then
    liftOrderOutcome ticker "sell" (executeSellOrder env cache ticker d.quantity)
  else if d.action = "short" then
    liftOrderOutcome ticker "short" (executeShortOrder env cache ticker d.quantity)
  else if d.action = "cover" then
    liftOrderOutcome ticker "cover" (executeCoverOrder env cache ticker d.quantity)
  else (unknownResult ticker d.action, cache, [])

/-- Simulation entry produced at order_execution_node.py lines 72-77
(raw quantity, no ticker key, fixed reason). -/
def simResult (action : String) (quantity : ℚ) : ExecResult :=
  ⟨none, some action, false, none, none, none, some quantity, none, none,
    some "Simulation mode - no actual orders placed", none⟩

/-- The simulation-mode loop (node lines 64-77): only decisions with
`action != "hold" and quantity > 0` produce an entry; no client exists, so no
call is ever made. -/
def simResults (decisions : List (String × Decision)) : List (String × ExecResult) :=
  decisions.filterMap
    (fun td =>
      if td.2.action ≠ "hold" ∧ 0 < td.2.quantity then some (td.1, simResult td.2.action td.2.quantity)
      else none)

/-- The live-mode loop (node lines 78-97): every ticker gets exactly one
entry; `execute_decision` is total in this model, so the node's own
per-ticker `except` (lines 90-97) is unreachable.  Threads the symbol-info
cache and accumulates client calls. -/
def liveResults (env : ExchangeEnv) (cache : Cache) :
    List (String × Decision) → List (String × ExecResult) × Cache × List ApiCall
  | [] => ([], cache, [])
  | td :: rest =>
    ((td.1, (executeDecision env cache td.1 td.2).1)
        :: (liveResults env (executeDecision env cache td.1 td.2).2.1 rest).1,
      (liveResults env (executeDecision env cache td.1 td.2).2.1 rest).2.1,
      (executeDecision env cache td.1 td.2).2.2
        ++ (liveResults env (executeDecision env cache td.1 td.2).2.1 rest).2.2)

/-- The execution summary built at node lines 100-105. -/
structure ExecutionReport where
  mode : String
  results : List (String × ExecResult)
  totalOrders : ℕ
  totalErrors : ℕ
deriving DecidableEq

/-- Build the report from the per-ticker results (`total_orders` counts
`executed` entries, `total_errors` counts entries with `error` set). -/
def mkReport (mode : String) (rs : List (String × ExecResult)) : ExecutionReport :=
  ⟨mode, rs, (rs.filter (fun p => p.2.executed)).length,
    (rs.filter (fun p => p.2.error.isSome)).length⟩

/-- The dispatch core of `OrderExecutionNode.__call__` (node lines 62-105)
for an already-parsed decision batch: live mode when `enable_execution` is
set, simulation otherwise.  Returns the report and every client call made. -/
def dispatch (env : ExchangeEnv) (liveMode : Bool) (decisions : List (String × Decision)) :
    ExecutionReport × List ApiCall :=
  if liveMode then
    (mkReport "live" (liveResults env [] decisions).1, (liveResults env [] decisions).2.2)
  else
    (mkReport "simulation" (simResults decisions), [])

/-- The cache only ever holds records that agree with what an uncached lookup
would return; this is the invariant that makes per-ticker results independent
of the shared cache. -/
def CacheOK (env : ExchangeEnv) (cache : Cache) : Prop :=
  ∀ s si, cacheLookup cache s = some si → lookupSymbol env s = .ok si

/-- Whether a recorded client call is an order submission (as opposed to a
metadata or price lookup). -/
def isOrderCall : ApiCall → Bool
  | .orderMarketBuy _ _ => true
  | .orderMarketSell _ _ => true
  | .createMarginOrder _ _ _ _ _ => true
  | _ => false

/-! ## Concrete client environments used as test inputs -/

/-- A client whose every call fails: metadata lookup, price and all order
submissions raise. -/
def envRejectAll : ExchangeEnv :=
  ⟨.error "exchange info unavailable",
    fun _ => .error "no price",
    fun _ _ => .error "Account has insufficient balance.",
    fun _ _ => .error "Account has insufficient balance.",
    fun _ _ _ _ _ => .error "Account has insufficient balance."⟩

/-- A client advertising a degenerate `LOT_SIZE` filter with `stepSize = 0`
and `minQty = 0.4` and no reachable price. -/
def envTrunc : ExchangeEnv :=
  ⟨.ok [⟨"XUSDT", [.lotSize 0 (2/5)]⟩],
    fun _ => .error "no price",
    fun _ _ => .error "rejected",
    fun _ _ => .error "rejected",
    fun _ _ _ _ _ => .error "rejected"⟩

/-- A client with a normal `LOT_SIZE` filter (`stepSize = 0.001`) whose
price endpoint times out. -/
def envPriceFail : ExchangeEnv :=
  ⟨.ok [⟨"BTCUSDT", [.lotSize (1/1000) 0]⟩],
    fun _ => .error "timeout",
    fun _ _ => .error "rejected",
    fun _ _ => .error "rejected",
    fun _ _ _ _ _ => .error "rejected"⟩

/-! ## Lemmas about the numeric helpers -/

theorem roundHalfEven_intCast (z : ℤ) : roundHalfEven (z : ℚ) = z := by
  unfold roundHalfEven
  simp only [Int.floor_intCast, sub_self]
  norm_num

theorem floor_le_roundHalfEven (x : ℚ) : ⌊x⌋ ≤ roundHalfEven x := by
  simp only [roundHalfEven]
  split_ifs <;> omega

theorem ratTrunc_intCast (z : ℤ) : ratTrunc (z : ℚ) = z := by
  unfold ratTrunc
  split_ifs with h
  · exact Int.floor_intCast z
  · rw [← Int.cast_neg, Int.floor_intCast]; ring

theorem isInt_intCast (z : ℤ) : IsInt (z : ℚ) := ⟨z, rfl⟩

theorem IsInt.mul {a b : ℚ} (ha : IsInt a) (hb : IsInt b) : IsInt (a * b) := by
  obtain ⟨x, hx⟩ := ha; obtain ⟨y, hy⟩ := hb
  exact ⟨x * y, by rw [hx, hy]; push_cast; ring⟩

theorem fixedVal_exact (q : ℚ) (p : ℕ) (h : IsInt (q * 10 ^ p)) : fixedVal q p = q := by
  obtain ⟨z, hz⟩ := h
  unfold fixedVal
  rw [hz, roundHalfEven_intCast, ← hz]
  exact mul_div_cancel_right₀ q (by positivity)

theorem fmtMain_val_exact (q : ℚ) (p : ℕ) (h : IsInt (q * 10 ^ p)) : (fmtMain q p).2 = q := by
  unfold fmtMain
  split_ifs with hp
  · subst hp
    simp only [pow_zero, mul_one] at h
    obtain ⟨z, hz⟩ := h
    simp only [hz, ratTrunc_intCast]
  · exact fixedVal_exact q p h

/-! ## Lemmas about the notional-correction loop -/

theorem notionalLoopAux_shape (price target incr : ℚ) :
    ∀ (fuel : ℕ) (q : ℚ),
      (notionalLoopAux fuel q price target incr).1
        = q + ((notionalLoopAux fuel q price target incr).2 : ℚ) * incr := by
  intro fuel
  induction fuel with
  | zero => intro q; simp [notionalLoopAux]
  | succ n ih =>
    intro q
    unfold notionalLoopAux
    split_ifs with h
    · simp only []
      rw [ih (q + incr)]
      push_cast
      ring
    · simp

theorem notionalLoopAux_post (price target incr : ℚ) :
    ∀ (fuel : ℕ) (q : ℚ), target ≤ (q + (fuel : ℚ) * incr) * price →
      ¬ ((notionalLoopAux fuel q price target incr).1 * price < target) := by
  intro fuel
  induction fuel with
  | zero =>
    intro q hq
    simp only [notionalLoopAux, Nat.cast_zero, zero_mul, add_zero] at hq ⊢
    exact not_lt.mpr hq
  | succ n ih =>
    intro q hq
    unfold notionalLoopAux
    split_ifs with h
    · simp only []
      apply ih (q + incr)
      push_cast at hq ⊢
      nlinarith [hq]
    · exact h

theorem notionalLoopAux_min_iter (price target incr : ℚ) :
    ∀ (fuel : ℕ) (q : ℚ) (m : ℕ), m < (notionalLoopAux fuel q price target incr).2 →
      (q + (m : ℚ) * incr) * price < target := by
  intro fuel
  induction fuel with
  | zero => intro q m hm; simp [notionalLoopAux] at hm
  | succ n ih =>
    intro q m hm
    unfold notionalLoopAux at hm
    split_ifs at hm with h
    · simp only [] at hm
      cases m with
      | zero => simpa using h
      | succ m' =>
        have h' := ih (q + incr) m' (by omega)
        push_cast at h' ⊢
        nlinarith [h']
    · simp at hm

theorem loopFuel_suff (q price target incr : ℚ) (hp : 0 < price) (hi : 0 < incr) :
    target ≤ (q + (loopFuel q price target incr : ℚ) * incr) * price := by
  have hip : 0 < incr * price := mul_pos hi hp
  set x := (target - q * price) / (incr * price) with hx
  have h1 : x ≤ ((⌈x⌉.toNat : ℤ) : ℚ) :=
    le_trans (Int.le_ceil x) (by exact_mod_cast Int.self_le_toNat ⌈x⌉)
  have h2 : x ≤ (loopFuel q price target incr : ℚ) := by
    unfold loopFuel
    rw [← hx]
    push_cast
    push_cast at h1
    linarith
  have h3 : x * (incr * price) = target - q * price := div_mul_cancel₀ _ (ne_of_gt hip)
  have h4 : x * (incr * price) ≤ (loopFuel q price target incr : ℚ) * (incr * price) :=
    mul_le_mul_of_nonneg_right h2 hip.le
  nlinarith [h3, h4]

theorem incr_pos (step : ℚ) : (0 : ℚ) < if 0 < step then step else 1/10 := by
  split_ifs with h
  · exact h
  · norm_num

theorem notionalStep_shape (mn price step q : ℚ) :
    (notionalStep mn price step q).1
      = q + ((notionalStep mn price step q).2 : ℚ) * (if 0 < step then step else 1/10) := by
  by_cases h : 0 < mn ∧ 0 < price
  · rw [notionalStep, if_pos h]
    exact notionalLoopAux_shape price (mn * (1001/1000)) _ _ q
  · rw [notionalStep, if_neg h]
    simp

theorem notionalStep_post (mn price step q : ℚ) (hmn : 0 < mn) (hp : 0 < price) :
    mn * (1001/1000) ≤ (notionalStep mn price step q).1 * price := by
  rw [notionalStep, if_pos (And.intro hmn hp)]
  exact not_lt.mp
    (notionalLoopAux_post price (mn * (1001/1000)) _ _ q
      (loopFuel_suff q price (mn * (1001/1000)) _ hp (incr_pos step)))

theorem notionalStep_min_iter (mn price step q : ℚ) (m : ℕ)
    (hm : m < (notionalStep mn price step q).2) :
    (q + (m : ℚ) * (if 0 < step then step else 1/10)) * price < mn * (1001/1000) := by
  by_cases h : 0 < mn ∧ 0 < price
  · rw [notionalStep, if_pos h] at hm
    exact notionalLoopAux_min_iter price (mn * (1001/1000)) _ _ q m hm
  · rw [notionalStep, if_neg h] at hm
    simp at hm

theorem le_notionalStep (mn price step q : ℚ) : q ≤ (notionalStep mn price step q).1 := by
  have hs := notionalStep_shape mn price step q
  have h0 : (0 : ℚ) ≤ ((notionalStep mn price step q).2 : ℚ) * (if 0 < step then step else 1/10) :=
    mul_nonneg (Nat.cast_nonneg _) (incr_pos step).le
  linarith [hs, h0]

/-! ## Lemmas about the adjusted quantity and the exact-formatting regime -/

theorem adjustedQty_lattice (step minQty mn price quantity : ℚ) (h1 : 0 < step) :
    ∃ z : ℤ, adjustedQty step minQty mn price quantity = (z : ℚ) * step := by
  have hq2 : snapToStep (raiseToMin quantity (max minQty (minQtyForNotional mn price))) step
      = ((roundHalfEven (raiseToMin quantity (max minQty (minQtyForNotional mn price)) / step) : ℤ)
          : ℚ) * step := by
    rw [snapToStep, if_pos h1]
  have hs := notionalStep_shape mn price step
    (snapToStep (raiseToMin quantity (max minQty (minQtyForNotional mn price))) step)
  rw [if_pos h1] at hs
  refine ⟨roundHalfEven (raiseToMin quantity (max minQty (minQtyForNotional mn price)) / step)
    + ((notionalStep mn price step
        (snapToStep (raiseToMin quantity (max minQty (minQtyForNotional mn price))) step)).2 : ℤ),
    ?_⟩
  rw [adjustedQty, hs, hq2]
  push_cast
  ring

theorem minQty_le_raiseToMin (quantity minQty other : ℚ) :
    minQty ≤ raiseToMin quantity (max minQty other) := by
  rw [raiseToMin]
  split_ifs with h
  · exact le_max_left _ _
  · exact le_trans (le_max_left _ _) (not_lt.mp h)

theorem adjustedQty_ge_minQty (step minQty mn price quantity : ℚ)
    (h1 : 0 < step) (h3 : IsInt (minQty / step)) :
    minQty ≤ adjustedQty step minQty mn price quantity := by
  obtain ⟨k, hk⟩ := h3
  have hmq : minQty = (k : ℚ) * step := by
    rw [← hk]
    field_simp
  have hq1 : minQty ≤ raiseToMin quantity (max minQty (minQtyForNotional mn price)) :=
    minQty_le_raiseToMin _ _ _
  have hk2 : (k : ℚ) ≤ raiseToMin quantity (max minQty (minQtyForNotional mn price)) / step := by
    rw [← hk]
    gcongr
  have hk4 :
      k ≤ roundHalfEven (raiseToMin quantity (max minQty (minQtyForNotional mn price)) / step) :=
    le_trans (Int.le_floor.mpr hk2) (floor_le_roundHalfEven _)
  have hq2 : minQty ≤ snapToStep (raiseToMin quantity (max minQty (minQtyForNotional mn price))) step := by
    rw [snapToStep, if_pos h1]
    calc minQty = (k : ℚ) * step := hmq
      _ ≤ ((roundHalfEven
            (raiseToMin quantity (max minQty (minQtyForNotional mn price)) / step) : ℤ) : ℚ)
            * step :=
        mul_le_mul_of_nonneg_right (by exact_mod_cast hk4) h1.le
  exact le_trans hq2 (le_notionalStep mn price step _)

theorem adjustedQty_exact (step minQty mn price quantity : ℚ) (h1 : 0 < step)
    (h4 : 1 ≤ step → IsInt step) (h5 : step < 1 → IsInt (step * 10 ^ pyFracDigits step)) :
    IsInt (adjustedQty step minQty mn price quantity * 10 ^ pyPrecision step) := by
  obtain ⟨z, hz⟩ := adjustedQty_lattice step minQty mn price quantity h1
  rw [pyPrecision]
  split_ifs with hlt
  · rw [hz, mul_assoc]
    exact (isInt_intCast z).mul (h5 hlt)
  · rw [pow_zero, mul_one, hz]
    exact (isInt_intCast z).mul (h4 (not_lt.mp hlt))

/-- In the exact-formatting regime (step positive, and either an integer or a
decimal-representable value below one) the final guard can never fire, and
the value of the returned string is exactly the adjusted quantity. -/
theorem normalizeCore_val_exact (step minQty mn price quantity : ℚ) (h1 : 0 < step)
    (h4 : 1 ≤ step → IsInt step) (h5 : step < 1 → IsInt (step * 10 ^ pyFracDigits step)) :
    (normalizeCore step minQty mn price quantity).2
      = adjustedQty step minQty mn price quantity := by
  have hfm : (fmtMain (adjustedQty step minQty mn price quantity) (pyPrecision step)).2
      = adjustedQty step minQty mn price quantity :=
    fmtMain_val_exact _ _ (adjustedQty_exact step minQty mn price quantity h1 h4 h5)
  rw [normalizeCore, if_neg, hfm]
  rintro ⟨hmn, hp, hlt⟩
  rw [hfm] at hlt
  have hpost := notionalStep_post mn price step
    (snapToStep (raiseToMin quantity (max minQty (minQtyForNotional mn price))) step) hmn hp
  rw [← adjustedQty] at hpost
  nlinarith [hpost, hmn, hlt]

/-! ## Cache lemmas: per-ticker results are independent of the shared cache -/

theorem cacheOK_nil (env : ExchangeEnv) : CacheOK env [] := by
  intro s si h
  simp [cacheLookup] at h

theorem getSymbolInfo_fst {env : ExchangeEnv} {cache : Cache} (h : CacheOK env cache)
    (s : String) : (getSymbolInfo env cache s).1 = lookupSymbol env s := by
  cases hc : cacheLookup cache s with
  | some si =>
    simp only [getSymbolInfo, hc]
    exact (h s si hc).symm
  | none =>
    cases he : env.exchangeInfo with
    | error e => simp [getSymbolInfo, lookupSymbol, hc, he]
    | ok symbols =>
      cases hf : symbols.find? (fun x => x.symbol == s) with
      | some si => simp [getSymbolInfo, lookupSymbol, hc, he, hf]
      | none => simp [getSymbolInfo, lookupSymbol, hc, he, hf]

theorem getSymbolInfo_cacheOK {env : ExchangeEnv} {cache : Cache} (h : CacheOK env cache)
    (s : String) : CacheOK env (getSymbolInfo env cache s).2.1 := by
  cases hc : cacheLookup cache s with
  | some si => simpa only [getSymbolInfo, hc] using h
  | none =>
    cases he : env.exchangeInfo with
    | error e => simpa only [getSymbolInfo, hc, he] using h
    | ok symbols =>
      cases hf : symbols.find? (fun x => x.symbol == s) with
      | none => simpa only [getSymbolInfo, hc, he, hf] using h
      | some si =>
        simp only [getSymbolInfo, hc, he, hf]
        intro t ti ht
        simp only [cacheLookup] at ht
        split_ifs at ht with hts
        · subst hts
          simp only [Option.some.injEq] at ht
          subst ht
          simp [lookupSymbol, he, hf]
        · exact h t ti ht

theorem formatQuantity_fst {env : ExchangeEnv} {cache : Cache} (h : CacheOK env cache)
    (s : String) (q : ℚ) :
    (formatQuantity env cache s q).1 = (formatQuantity env [] s q).1 := by
  simp only [formatQuantity]
  rw [getSymbolInfo_fst h, getSymbolInfo_fst (cacheOK_nil env)]

theorem formatQuantity_cacheOK {env : ExchangeEnv} {cache : Cache} (h : CacheOK env cache)
    (s : String) (q : ℚ) : CacheOK env (formatQuantity env cache s q).2.1 := by
  simp only [formatQuantity]
  exact getSymbolInfo_cacheOK h s

/-! ## Lemmas about the order helpers and `execute_decision` -/

theorem executeBuyOrder_fst {env : ExchangeEnv} {cache : Cache} (h : CacheOK env cache)
    (t : String) (q : ℚ) :
    (executeBuyOrder env cache t q).1 = (executeBuyOrder env [] t q).1 := by
  have hfq := formatQuantity_fst h t q
  simp only [executeBuyOrder, hfq]
  split_ifs with hle
  · rfl
  · cases env.marketBuy t (formatQuantity env [] t q).1.1 <;> rfl

theorem executeSellOrder_fst {env : ExchangeEnv} {cache : Cache} (h : CacheOK env cache)
    (t : String) (q : ℚ) :
    (executeSellOrder env cache t q).1 = (executeSellOrder env [] t q).1 := by
  have hfq := formatQuantity_fst h t q
  simp only [executeSellOrder, hfq]
  cases env.marketSell t (formatQuantity env [] t q).1.1 <;> rfl

theorem executeShortOrder_fst {env : ExchangeEnv} {cache : Cache} (h : CacheOK env cache)
    (t : String) (q : ℚ) :
    (executeShortOrder env cache t q).1 = (executeShortOrder env [] t q).1 := by
  have hfq := formatQuantity_fst h t q
  simp only [executeShortOrder, hfq]
  cases env.marginOrder t "SELL" "MARKET" (formatQuantity env [] t q).1.1 "FALSE" <;> rfl

theorem executeCoverOrder_fst {env : ExchangeEnv} {cache : Cache} (h : CacheOK env cache)
    (t : String) (q : ℚ) :
    (executeCoverOrder env cache t q).1 = (executeCoverOrder env [] t q).1 := by
  have hfq := formatQuantity_fst h t q
  simp only [executeCoverOrder, hfq]
  cases env.marginOrder t "BUY" "MARKET" (formatQuantity env [] t q).1.1 "FALSE" <;> rfl

theorem executeBuyOrder_cacheOK {env : ExchangeEnv} {cache : Cache} (h : CacheOK env cache)
    (t : String) (q : ℚ) : CacheOK env (executeBuyOrder env cache t q).2.1 := by
  simp only [executeBuyOrder]
  split_ifs with hle
  · exact formatQuantity_cacheOK h t q
  · cases env.marketBuy t (formatQuantity env cache t q).1.1 <;>
      exact formatQuantity_cacheOK h t q

theorem executeSellOrder_cacheOK {env : ExchangeEnv} {cache : Cache} (h : CacheOK env cache)
    (t : String) (q : ℚ) : CacheOK env (executeSellOrder env cache t q).2.1 := by
  simp only [executeSellOrder]
  cases env.marketSell t (formatQuantity env cache t q).1.1 <;>
    exact formatQuantity_cacheOK h t q

theorem executeShortOrder_cacheOK {env : ExchangeEnv} {cache : Cache} (h : CacheOK env cache)
    (t : String) (q : ℚ) : CacheOK env (executeShortOrder env cache t q).2.1 := by
  simp only [executeShortOrder]
  cases env.marginOrder t "SELL" "MARKET" (formatQuantity env cache t q).1.1 "FALSE" <;>
    exact formatQuantity_cacheOK h t q

theorem executeCoverOrder_cacheOK {env : ExchangeEnv} {cache : Cache} (h : CacheOK env cache)
    (t : String) (q : ℚ) : CacheOK env (executeCoverOrder env cache t q).2.1 := by
  simp only [executeCoverOrder]
  cases env.marginOrder t "BUY" "MARKET" (formatQuantity env cache t q).1.1 "FALSE" <;>
    exact formatQuantity_cacheOK h t q

theorem liftOrderOutcome_fst (t a : String)
    {x y : Except String ExecResult × Cache × List ApiCall} (hxy : x.1 = y.1) :
    (liftOrderOutcome t a x).1 = (liftOrderOutcome t a y).1 := by
  simp only [liftOrderOutcome, hxy]

theorem executeDecision_fst {env : ExchangeEnv} {cache : Cache} (h : CacheOK env cache)
    (t : String) (d : Decision) :
    (executeDecision env cache t d).1 = (executeDecision env [] t d).1 := by
  simp only [executeDecision]
  split_ifs with h1 h2 h3 h4 h5
  · rfl
  · exact liftOrderOutcome_fst _ _ (executeBuyOrder_fst h t d.quantity)
  · exact liftOrderOutcome_fst _ _ (executeSellOrder_fst h t d.quantity)
  · exact liftOrderOutcome_fst _ _ (executeShortOrder_fst h t d.quantity)
  · exact liftOrderOutcome_fst _ _ (executeCoverOrder_fst h t d.quantity)
  · rfl

theorem executeDecision_cacheOK {env : ExchangeEnv} {cache : Cache} (h : CacheOK env cache)
    (t : String) (d : Decision) : CacheOK env (executeDecision env cache t d).2.1 := by
  simp only [executeDecision]
  split_ifs with h1 h2 h3 h4 h5
  · exact h
  · exact executeBuyOrder_cacheOK h t d.quantity
  · exact executeSellOrder_cacheOK h t d.quantity
  · exact executeShortOrder_cacheOK h t d.quantity
  · exact executeCoverOrder_cacheOK h t d.quantity
  · exact h

theorem liveResults_eq_map (env : ExchangeEnv) :
    ∀ (ds : List (String × Decision)) (cache : Cache), CacheOK env cache →
      (liveResults env cache ds).1
        = ds.map (fun td => (td.1, (executeDecision env [] td.1 td.2).1)) := by
  intro ds
  induction ds with
  | nil => intro cache h; simp [liveResults]
  | cons td rest ih =>
    intro cache h
    simp only [liveResults, List.map_cons]
    rw [executeDecision_fst h td.1 td.2, ih _ (executeDecision_cacheOK h td.1 td.2)]

/-! ## Error entries never claim execution -/

theorem executeBuyOrder_ok {env : ExchangeEnv} {cache : Cache} {t : String} {q : ℚ}
    {r : ExecResult} (hr : (executeBuyOrder env cache t q).1 = .ok r) :
    r.executed = true ∧ r.error = none := by
  simp only [executeBuyOrder] at hr
  by_cases hle : (formatQuantity env cache t q).1.2 ≤ 0
  · rw [if_pos hle] at hr
    simp at hr
  · rw [if_neg hle] at hr
    cases hmb : env.marketBuy t (formatQuantity env cache t q).1.1 with
    | ok o =>
      rw [hmb] at hr
      simp only [Except.ok.injEq] at hr
      subst hr
      exact ⟨rfl, rfl⟩
    | error e => rw [hmb] at hr; simp at hr

theorem executeSellOrder_ok {env : ExchangeEnv} {cache : Cache} {t : String} {q : ℚ}
    {r : ExecResult} (hr : (executeSellOrder env cache t q).1 = .ok r) :
    r.executed = true ∧ r.error = none := by
  simp only [executeSellOrder] at hr
  cases hmb : env.marketSell t (formatQuantity env cache t q).1.1 with
  | ok o =>
    rw [hmb] at hr
    simp only [Except.ok.injEq] at hr
    subst hr
    exact ⟨rfl, rfl⟩
  | error e => rw [hmb] at hr; simp at hr

theorem executeShortOrder_ok {env : ExchangeEnv} {cache : Cache} {t : String} {q : ℚ}
    {r : ExecResult} (hr : (executeShortOrder env cache t q).1 = .ok r) :
    r.executed = true ∧ r.error = none := by
  simp only [executeShortOrder] at hr
  cases hmb : env.marginOrder t "SELL" "MARKET" (formatQuantity env cache t q).1.1 "FALSE" with
  | ok o =>
    rw [hmb] at hr
    simp only [Except.ok.injEq] at hr
    subst hr
    exact ⟨rfl, rfl⟩
  | error e => rw [hmb] at hr; simp at hr

theorem executeCoverOrder_ok {env : ExchangeEnv} {cache : Cache} {t : String} {q : ℚ}
    {r : ExecResult} (hr : (executeCoverOrder env cache t q).1 = .ok r) :
    r.executed = true ∧ r.error = none := by
  simp only [executeCoverOrder] at hr
  cases hmb : env.marginOrder t "BUY" "MARKET" (formatQuantity env cache t q).1.1 "FALSE" with
  | ok o =>
    rw [hmb] at hr
    simp only [Except.ok.injEq] at hr
    subst hr
    exact ⟨rfl, rfl⟩
  | error e => rw [hmb] at hr; simp at hr

theorem liftOrderOutcome_error_not_executed {t a : String}
    {x : Except String ExecResult × Cache × List ApiCall}
    (hok : ∀ r, x.1 = .ok r → r.executed = true ∧ r.error = none) :
    ((liftOrderOutcome t a x).1.error).isSome = true →
      (liftOrderOutcome t a x).1.executed = false := by
  simp only [liftOrderOutcome]
  cases hx : x.1 with
  | ok r =>
    intro hsome
    rw [(hok r hx).2] at hsome
    simp at hsome
  | error e => intro _; rfl

theorem executeDecision_error_not_executed (env : ExchangeEnv) (cache : Cache)
    (t : String) (d : Decision) :
    ((executeDecision env cache t d).1.error).isSome = true →
      (executeDecision env cache t d).1.executed = false := by
  simp only [executeDecision]
  split_ifs with h1 h2 h3 h4 h5
  · intro _; rfl
  · exact liftOrderOutcome_error_not_executed (fun r hr => executeBuyOrder_ok hr)
  · exact liftOrderOutcome_error_not_executed (fun r hr => executeSellOrder_ok hr)
  · exact liftOrderOutcome_error_not_executed (fun r hr => executeShortOrder_ok hr)
  · exact liftOrderOutcome_error_not_executed (fun r hr => executeCoverOrder_ok hr)
  · intro _; rfl

/-! ## Which client calls each path performs -/

theorem getSymbolInfo_no_order_calls (env : ExchangeEnv) (cache : Cache) (s : String) :
    ((getSymbolInfo env cache s).2.2).filter isOrderCall = [] := by
  cases hc : cacheLookup cache s with
  | some si => simp [getSymbolInfo, hc]
  | none =>
    cases he : env.exchangeInfo with
    | error e => simp [getSymbolInfo, hc, he, isOrderCall]
    | ok symbols =>
      cases hf : symbols.find? (fun x => x.symbol == s) with
      | some si => simp [getSymbolInfo, hc, he, hf, isOrderCall]
      | none => simp [getSymbolInfo, hc, he, hf, isOrderCall]

theorem formatQuantity_no_order_calls (env : ExchangeEnv) (cache : Cache) (s : String) (q : ℚ) :
    ((formatQuantity env cache s q).2.2).filter isOrderCall = [] := by
  simp only [formatQuantity]
  rw [List.filter_append, getSymbolInfo_no_order_calls]
  split_ifs <;> simp [isOrderCall]

theorem executeBuyOrder_order_calls (env : ExchangeEnv) (cache : Cache) (t : String) (q : ℚ) :
    ((executeBuyOrder env cache t q).2.2).filter isOrderCall
      = if (formatQuantity env cache t q).1.2 ≤ 0 then []
        else [.orderMarketBuy t (formatQuantity env cache t q).1.1] := by
  simp only [executeBuyOrder]
  split_ifs with hle
  · exact formatQuantity_no_order_calls env cache t q
  · cases env.marketBuy t (formatQuantity env cache t q).1.1 <;>
      simp [List.filter_append, formatQuantity_no_order_calls, isOrderCall]

theorem executeSellOrder_order_calls (env : ExchangeEnv) (cache : Cache) (t : String) (q : ℚ) :
    ((executeSellOrder env cache t q).2.2).filter isOrderCall
      = [.orderMarketSell t (formatQuantity env cache t q).1.1] := by
  simp only [executeSellOrder]
  cases env.marketSell t (formatQuantity env cache t q).1.1 <;>
    simp [List.filter_append, formatQuantity_no_order_calls, isOrderCall]

theorem executeShortOrder_order_calls (env : ExchangeEnv) (cache : Cache) (t : String) (q : ℚ) :
    ((executeShortOrder env cache t q).2.2).filter isOrderCall
      = [.createMarginOrder t "SELL" "MARKET" (formatQuantity env cache t q).1.1 "FALSE"] := by
  simp only [executeShortOrder]
  cases env.marginOrder t "SELL" "MARKET" (formatQuantity env cache t q).1.1 "FALSE" <;>
    simp [List.filter_append, formatQuantity_no_order_calls, isOrderCall]

theorem executeCoverOrder_order_calls (env : ExchangeEnv) (cache : Cache) (t : String) (q : ℚ) :
    ((executeCoverOrder env cache t q).2.2).filter isOrderCall
      = [.createMarginOrder t "BUY" "MARKET" (formatQuantity env cache t q).1.1 "FALSE"] := by
  simp only [executeCoverOrder]
  cases env.marginOrder t "BUY" "MARKET" (formatQuantity env cache t q).1.1 "FALSE" <;>
    simp [List.filter_append, formatQuantity_no_order_calls, isOrderCall]

theorem simResults_keys (ds : List (String × Decision)) :
    (simResults ds).map Prod.fst
      = (ds.filter (fun td => decide (td.2.action ≠ "hold" ∧ 0 < td.2.quantity))).map Prod.fst := by
  induction ds with
  | nil => rfl
  | cons td rest ih =>
    by_cases hc : td.2.action ≠ "hold" ∧ 0 < td.2.quantity
    · simp only [simResults, List.filterMap_cons, List.filter_cons]
      rw [if_pos hc, if_pos (decide_eq_true hc)]
      simp only [List.map_cons]
      congr 1
    · simp only [simResults, List.filterMap_cons, List.filter_cons]
      rw [if_neg hc, if_neg (by simpa using hc)]
      exact ih

/-! # Claim theorems -/

/-- C1 (code bug): with `minNotional = 0.001001 > 0`, `price = 1000 > 0` and
raw quantity `1.0025e-6`, the final guard of `_format_quantity` fires (the
code raises `ValueError` because the truncated formatted string `"0"` is
below the minimum notional), yet the function's own blanket `except` catches
that very error and returns the 8-decimal fallback `"0.00000100"`, whose
value times the price (`0.001`) is still below `minNotional = 0.001001`.  So
normalization does not fail with `BelowMinNotional`, and the order proceeds
to submission, contradicting the claim. -/
theorem c1_below_min_notional_swallowed :
    guardFires 0 0 (1001/1000000) 1000 (10025/10000000000) ∧
    normalizeCore 0 0 (1001/1000000) 1000 (10025/10000000000) = ("0.00000100", 1/1000000) ∧
    (1/1000000 : ℚ) * 1000 < 1001/1000000 := by
  refine ⟨by decide, by decide, by decide⟩

/-- C2: in live mode the report has exactly one entry per input pair, each
equal to what processing that ticker alone (fresh cache) would produce, and
any entry carrying an error is marked not executed.  Per-ticker failures are
values, never exceptions, so nothing escapes the dispatch loop. -/
theorem c2_batch_isolation (env : ExchangeEnv) (ds : List (String × Decision)) :
    (dispatch env true ds).1.results
        = ds.map (fun td => (td.1, (executeDecision env [] td.1 td.2).1)) ∧
    ∀ p ∈ (dispatch env true ds).1.results, p.2.error.isSome = true → p.2.executed = false := by
  have hmap : (dispatch env true ds).1.results
      = ds.map (fun td => (td.1, (executeDecision env [] td.1 td.2).1)) := by
    have hres : (dispatch env true ds).1.results = (liveResults env [] ds).1 := rfl
    rw [hres, liveResults_eq_map env ds [] (cacheOK_nil env)]
  refine ⟨hmap, ?_⟩
  intro p hp herr
  rw [hmap] at hp
  obtain ⟨td, _, heq⟩ := List.mem_map.mp hp
  rw [← heq] at herr ⊢
  exact executeDecision_error_not_executed env [] td.1 td.2 herr

/-- Witness for C2: a batch whose single buy decision is rejected by the
exchange yields exactly the error entry, marked not executed. -/
theorem c2_batch_isolation_witness :
    ("BTCUSDT", errorResult "BTCUSDT" "buy" "Account has insufficient balance.")
        ∈ (dispatch envRejectAll true [("BTCUSDT", ⟨"buy", 1, 50⟩)]).1.results ∧
    (errorResult "BTCUSDT" "buy" "Account has insufficient balance.").executed = false := by
  refine ⟨by decide, ?_⟩
  exact (c2_batch_isolation envRejectAll [("BTCUSDT", ⟨"buy", 1, 50⟩)]).2
    ("BTCUSDT", errorResult "BTCUSDT" "buy" "Account has insufficient balance.")
    (by decide) (by decide)

/-- C3 counterexample: in simulation mode a `hold` decision produces no
result entry at all, so the report does not cover every input ticker. -/
theorem c3_per_ticker_coverage_counterexample :
    (dispatch envRejectAll false [("BTCUSDT", ⟨"hold", 0, 0⟩)]).1.results = [] ∧
    [("BTCUSDT", (⟨"hold", 0, 0⟩ : Decision))] ≠ [] := by
  exact ⟨rfl, by decide⟩

/-- C3 amended: in live mode the report covers exactly the input tickers in
order; in simulation mode it covers exactly the tickers whose decision has
`action ≠ "hold"` and positive quantity. -/
theorem c3_per_ticker_coverage_amended (env : ExchangeEnv) (ds : List (String × Decision)) :
    ((dispatch env true ds).1.results).map Prod.fst = ds.map Prod.fst ∧
    ((dispatch env false ds).1.results).map Prod.fst
      = (ds.filter (fun td => decide (td.2.action ≠ "hold" ∧ 0 < td.2.quantity))).map Prod.fst := by
  constructor
  · have hres : (dispatch env true ds).1.results = (liveResults env [] ds).1 := rfl
    rw [hres, liveResults_eq_map env ds [] (cacheOK_nil env), List.map_map]
    rfl
  · have hres : (dispatch env false ds).1.results = simResults ds := rfl
    rw [hres]
    exact simResults_keys ds

/-- C4 counterexample: `stepSize = 1`, `minQty = 1.3` (not on the step
lattice), raw quantity `0.5`: the quantity is first raised to `1.3`, but the
step snap rounds it down to `1`, and `"1"` is returned although `1 < minQty`. -/
theorem c4_min_qty_floor_counterexample :
    normalizeCore 1 (13/10) 0 0 (1/2) = ("1", 1) ∧
    (0 : ℚ) < 13/10 ∧ (1 : ℚ) < 13/10 := by
  refine ⟨by decide, by decide, by decide⟩

/-- C4 amended: when the step size is positive and exactly representable at
the decimal precision the code derives from its float repr — an integer, or
a decimal value in `[1e-4, 1)`; below `1e-4` the repr switches to scientific
notation, the derived precision is coarser than the step's digit count, the
hypothesis fails and so does the program property — and `minQty` lies on
the step lattice, the value of the returned quantity is at least `minQty`. -/
theorem c4_min_qty_floor_amended (step minQty mn price quantity : ℚ)
    (hq : 0 < minQty) (h1 : 0 < step) (h3 : IsInt (minQty / step))
    (h4 : 1 ≤ step → IsInt step) (h5 : step < 1 → IsInt (step * 10 ^ pyFracDigits step)) :
    minQty ≤ (normalizeCore step minQty mn price quantity).2 := by
  rw [normalizeCore_val_exact step minQty mn price quantity h1 h4 h5]
  exact adjustedQty_ge_minQty step minQty mn price quantity h1 h3

/-- Witness for C4 (the worked example of the specification): rules
`stepSize = 0.001`, `minQty = 0.01`, `minNotional = 5`, price `20000`, raw
quantity `0.0001` — the result value is at least `0.01`. -/
theorem c4_min_qty_floor_witness :
    (0 : ℚ) < 1/100 ∧ (0 : ℚ) < 1/1000 ∧
    (1/100 : ℚ) ≤ (normalizeCore (1/1000) (1/100) 5 20000 (1/10000)).2 := by
  refine ⟨by norm_num, by norm_num, ?_⟩
  exact c4_min_qty_floor_amended (1/1000) (1/100) 5 20000 (1/10000)
    (by norm_num) (by norm_num) ⟨10, by norm_num⟩
    (fun h => absurd h (by norm_num)) (fun _ => ⟨1, by decide⟩)

/-- C5 counterexample: with `minNotional = 10001000`, `price = 1`,
`stepSize = 1` and raw quantity `10001000`, the notional-correction loop
performs 10001 iterations — more than the claimed 10,000-iteration cap — and
`_format_quantity` still returns the corrected quantity `"10011001"`: there
is no iteration bound and no `InvalidOrderSize` failure in the code. -/
theorem c5_loop_termination_counterexample :
    (notionalStep 10001000 1 1 10001000).2 = 10001 ∧
    10000 < (notionalStep 10001000 1 1 10001000).2 ∧
    normalizeCore 1 0 10001000 1 10001000 = ("10011001", 10011001) := by
  have hone : (0 : ℚ) < 1 := by norm_num
  have hshape := notionalStep_shape 10001000 1 1 10001000
  rw [if_pos hone] at hshape
  have hpost := notionalStep_post 10001000 1 1 10001000 (by norm_num) (by norm_num)
  have hge : (10001 : ℕ) ≤ (notionalStep 10001000 1 1 10001000).2 := by
    have : (10001 : ℚ) ≤ ((notionalStep 10001000 1 1 10001000).2 : ℚ) := by nlinarith
    exact_mod_cast this
  have hle : (notionalStep 10001000 1 1 10001000).2 ≤ 10001 := by
    by_contra hgt
    push_neg at hgt
    have hmi := notionalStep_min_iter 10001000 1 1 10001000 10001 hgt
    rw [if_pos hone] at hmi
    norm_num at hmi
  have hn : (notionalStep 10001000 1 1 10001000).2 = 10001 := le_antisymm hle hge
  have hr : (notionalStep 10001000 1 1 10001000).1 = 10011001 := by
    rw [hshape, hn]
    norm_num
  have hadj : adjustedQty 1 0 10001000 1 10001000 = 10011001 := by
    rw [adjustedQty]
    have hsnap :
        snapToStep (raiseToMin 10001000 (max 0 (minQtyForNotional 10001000 1))) 1
          = 10001000 := by decide
    rw [hsnap, hr]
  refine ⟨hn, by omega, ?_⟩
  have hfm : fmtMain (10011001 : ℚ) (pyPrecision 1) = ("10011001", 10011001) := by decide
  rw [normalizeCore, hadj, hfm, if_neg]
  rintro ⟨-, -, hlt⟩
  norm_num at hlt

/-- C5 amended: the notional-correction loop terminates on every input with
positive minimum notional and price — each iteration adds a fixed positive
increment, so the exit condition `quantity * price ≥ minNotional * 1.001` is
provably reached — but via no explicit iteration cap, and the code has no
`InvalidOrderSize` error. -/
theorem c5_loop_termination_amended (mn price step q : ℚ) (hmn : 0 < mn) (hp : 0 < price) :
    mn * (1001/1000) ≤ (notionalStep mn price step q).1 * price ∧
    (notionalStep mn price step q).1
      = q + ((notionalStep mn price step q).2 : ℚ) * (if 0 < step then step else 1/10) :=
  ⟨notionalStep_post mn price step q hmn hp, notionalStep_shape mn price step q⟩

/-- Witness for C5: a small run with `minNotional = 5`, `price = 2`. -/
theorem c5_loop_termination_witness :
    (0 : ℚ) < 5 ∧ (0 : ℚ) < 2 ∧
    (5 : ℚ) * (1001/1000) ≤ (notionalStep 5 2 1 0).1 * 2 := by
  refine ⟨by norm_num, by norm_num, ?_⟩
  exact (c5_loop_termination_amended 5 2 1 0 (by norm_num) (by norm_num)).1

/-- C6 counterexample: `stepSize = 2.5` (not below one and not an integer):
quantity `7` is snapped to the lattice point `7.5`, but precision 0 integer
truncation formats it as `"7"`, which is not within `1e-9` of any integer
multiple of `2.5`. -/
theorem c6_step_lattice_counterexample :
    normalizeCore (5/2) (5/2) 0 0 7 = ("7", 7) ∧
    ¬ ∃ k : ℤ, |(7 : ℚ) - k * (5/2)| ≤ 1/1000000000 := by
  refine ⟨by decide, ?_⟩
  rintro ⟨k, hk⟩
  have h2 : |(14 : ℚ) - 5 * k| ≤ 2/1000000000 := by
    have he : (14 : ℚ) - 5 * k = 2 * ((7 : ℚ) - k * (5/2)) := by ring
    rw [he, abs_mul, abs_of_pos (by norm_num : (0:ℚ) < 2)]
    linarith
  have h3 : ((14 - 5 * k : ℤ) : ℚ) = 14 - 5 * (k : ℚ) := by push_cast; ring
  have h5 : (14 - 5 * k : ℤ) = 0 := by
    by_contra h0
    have h6 : (1 : ℚ) ≤ |((14 - 5 * k : ℤ) : ℚ)| := by
      rw [← Int.cast_abs]
      exact_mod_cast Int.one_le_abs h0
    rw [h3] at h6
    linarith
  omega

/-- C6 amended: when the positive step size is exactly representable at the
decimal precision the code derives from its float repr — an integer, or a
decimal value in `[1e-4, 1)`; below `1e-4` the scientific-notation repr makes
the derived precision coarser than the step's digit count, the hypothesis
fails and formatting can leave the lattice — the value of the returned
quantity is exactly an integer multiple of the step size (in particular
within the claimed `1e-9` tolerance). -/
theorem c6_step_lattice_amended (step minQty mn price quantity : ℚ) (h1 : 0 < step)
    (h4 : 1 ≤ step → IsInt step) (h5 : step < 1 → IsInt (step * 10 ^ pyFracDigits step)) :
    ∃ k : ℤ, (normalizeCore step minQty mn price quantity).2 = (k : ℚ) * step := by
  rw [normalizeCore_val_exact step minQty mn price quantity h1 h4 h5]
  exact adjustedQty_lattice step minQty mn price quantity h1

/-- Witness for C6: `stepSize = 0.5`, raw quantity `7/3`. -/
theorem c6_step_lattice_witness :
    (0 : ℚ) < 1/2 ∧
    ∃ k : ℤ, (normalizeCore (1/2) 0 0 0 (7/3)).2 = (k : ℚ) * (1/2) := by
  refine ⟨by norm_num, ?_⟩
  exact c6_step_lattice_amended (1/2) 0 0 0 (7/3) (by norm_num)
    (fun h => absurd h (by norm_num)) (fun _ => ⟨5, by decide⟩)

/-- C7: a decision with `action = "hold"` or non-positive quantity is skipped
with the fixed reason and the executor makes no client call of any kind. -/
theorem c7_hold_skip (env : ExchangeEnv) (cache : Cache) (t : String) (d : Decision)
    (h : d.action = "hold" ∨ d.quantity ≤ 0) :
    executeDecision env cache t d = (skipResult t, cache, []) := by
  rw [executeDecision, if_pos h]

/-- Witness for C7: a buy decision with zero quantity. -/
theorem c7_hold_skip_witness :
    ((⟨"buy", 0, 0⟩ : Decision).quantity ≤ 0) ∧
    executeDecision envRejectAll [] "BTCUSDT" ⟨"buy", 0, 0⟩ = (skipResult "BTCUSDT", [], []) := by
  refine ⟨by norm_num, ?_⟩
  exact c7_hold_skip envRejectAll [] "BTCUSDT" ⟨"buy", 0, 0⟩ (Or.inr (by norm_num))

/-- C8 counterexample: in live mode, a buy decision with positive raw
quantity `0.5` against a `LOT_SIZE` filter with `stepSize = 0` and
`minQty = 0.4` normalizes to the truncated string `"0"`; the buy path then
raises `ValueError("Invalid quantity: 0")`, the decision is recorded as an
error, and no spot market buy is ever submitted. -/
theorem c8_order_routing_counterexample :
    (0 : ℚ) < (1/2 : ℚ) ∧
    (executeDecision envTrunc [] "XUSDT" ⟨"buy", 1/2, 0⟩).1
        = errorResult "XUSDT" "buy" "Invalid quantity: 0" ∧
    ((executeDecision envTrunc [] "XUSDT" ⟨"buy", 1/2, 0⟩).2.2).filter isOrderCall = [] := by
  refine ⟨by norm_num, by decide, by decide⟩

/-- C8 amended: in live mode with positive quantity, sell submits exactly one
spot market sell, short exactly one cross-margin (`isIsolated="FALSE"`)
market sell, cover exactly one cross-margin market buy, each with the
normalized quantity string — and buy submits exactly one spot market buy
provided the normalized quantity parses to a positive value (otherwise it is
recorded as an error and nothing is submitted).  No other order type or side
is ever used. -/
theorem c8_order_routing_amended (env : ExchangeEnv) (cache : Cache) (t : String)
    (d : Decision) (hq : 0 < d.quantity) :
    (d.action = "buy" →
      ((executeDecision env cache t d).2.2).filter isOrderCall
        = if (formatQuantity env cache t d.quantity).1.2 ≤ 0 then []
          else [.orderMarketBuy t (formatQuantity env cache t d.quantity).1.1]) ∧
    (d.action = "sell" →
      ((executeDecision env cache t d).2.2).filter isOrderCall
        = [.orderMarketSell t (formatQuantity env cache t d.quantity).1.1]) ∧
    (d.action = "short" →
      ((executeDecision env cache t d).2.2).filter isOrderCall
        = [.createMarginOrder t "SELL" "MARKET" (formatQuantity env cache t d.quantity).1.1 "FALSE"]) ∧
    (d.action = "cover" →
      ((executeDecision env cache t d).2.2).filter isOrderCall
        = [.createMarginOrder t "BUY" "MARKET" (formatQuantity env cache t d.quantity).1.1 "FALSE"]) := by
  have hmk : ∀ a : String, d.action = a → ¬(d.action = "hold" ∨ d.quantity ≤ 0) ∨ a = "hold" := by
    intro a ha
    by_cases hh : a = "hold"
    · exact Or.inr hh
    · refine Or.inl ?_
      rintro (h1 | h2)
      · exact hh (ha ▸ h1)
      · exact absurd h2 (not_le.mpr hq)
  refine ⟨fun ha => ?_, fun ha => ?_, fun ha => ?_, fun ha => ?_⟩
  · have hcond : ¬(d.action = "hold" ∨ d.quantity ≤ 0) := by
      rcases hmk "buy" ha with h | h
      · exact h
      · exact absurd h (by decide)
    rw [executeDecision, if_neg hcond, if_pos ha]
    exact executeBuyOrder_order_calls env cache t d.quantity
  · have hcond : ¬(d.action = "hold" ∨ d.quantity ≤ 0) := by
      rcases hmk "sell" ha with h | h
      · exact h
      · exact absurd h (by decide)
    have hnb : ¬ d.action = "buy" := by rw [ha]; decide
    rw [executeDecision, if_neg hcond, if_neg hnb, if_pos ha]
    exact executeSellOrder_order_calls env cache t d.quantity
  · have hcond : ¬(d.action = "hold" ∨ d.quantity ≤ 0) := by
      rcases hmk "short" ha with h | h
      · exact h
      · exact absurd h (by decide)
    have hnb : ¬ d.action = "buy" := by rw [ha]; decide
    have hns : ¬ d.action = "sell" := by rw [ha]; decide
    rw [executeDecision, if_neg hcond, if_neg hnb, if_neg hns, if_pos ha]
    exact executeShortOrder_order_calls env cache t d.quantity
  · have hcond : ¬(d.action = "hold" ∨ d.quantity ≤ 0) := by
      rcases hmk "cover" ha with h | h
      · exact h
      · exact absurd h (by decide)
    have hnb : ¬ d.action = "buy" := by rw [ha]; decide
    have hns : ¬ d.action = "sell" := by rw [ha]; decide
    have hnh : ¬ d.action = "short" := by rw [ha]; decide
    rw [executeDecision, if_neg hcond, if_neg hnb, if_neg hns, if_neg hnh, if_pos ha]
    exact executeCoverOrder_order_calls env cache t d.quantity

/-- Witness for C8: a live buy whose metadata lookup fails formats with the
8-decimal fallback `"1.00000000"` and submits exactly one spot market buy. -/
theorem c8_order_routing_witness :
    ((executeDecision envRejectAll [] "BTCUSDT" ⟨"buy", 1, 0⟩).2.2).filter isOrderCall
      = [.orderMarketBuy "BTCUSDT" "1.00000000"] := by
  have h := (c8_order_routing_amended envRejectAll [] "BTCUSDT" ⟨"buy", 1, 0⟩ (by norm_num)).1 rfl
  rw [h]
  decide

/-- C9: with `liveMode = false` no client call of any kind is made, and every
decision with `action ≠ "hold"` and positive quantity yields the simulation
entry (`executed = false`, the fixed reason, and the intended action and raw
quantity). -/
theorem c9_simulation_frame (env : ExchangeEnv) (ds : List (String × Decision)) :
    (dispatch env false ds).2 = [] ∧
    (dispatch env false ds).1.results = simResults ds ∧
    ∀ t d, (t, d) ∈ ds → d.action ≠ "hold" → 0 < d.quantity →
      (t, simResult d.action d.quantity) ∈ (dispatch env false ds).1.results := by
  refine ⟨rfl, rfl, ?_⟩
  intro t d hmem hact hq
  have hres : (dispatch env false ds).1.results = simResults ds := rfl
  rw [hres]
  exact List.mem_filterMap.mpr ⟨(t, d), hmem, by rw [if_pos ⟨hact, hq⟩]⟩

/-- Witness for C9: a simulated buy of `1.5` yields the simulation entry and
the whole batch makes zero client calls. -/
theorem c9_simulation_frame_witness :
    ("BTCUSDT", simResult "buy" (3/2))
        ∈ (dispatch envRejectAll false [("BTCUSDT", ⟨"buy", 3/2, 80⟩)]).1.results ∧
    (dispatch envRejectAll false [("BTCUSDT", ⟨"buy", 3/2, 80⟩)]).2 = [] := by
  refine ⟨?_, (c9_simulation_frame envRejectAll [("BTCUSDT", ⟨"buy", 3/2, 80⟩)]).1⟩
  exact (c9_simulation_frame envRejectAll [("BTCUSDT", ⟨"buy", 3/2, 80⟩)]).2.2
    "BTCUSDT" ⟨"buy", 3/2, 80⟩ (by decide) (by decide) (by norm_num)

/-- C10 counterexample: a failing price lookup is caught, but processing then
continues through the lot-size branch with `current_price = 0` — the result
`"0.5"` is the step-formatted string, not the claimed fixed 8-decimal-place
formatting `"0.50000000"`. -/
theorem c10_total_formatter_counterexample :
    envPriceFail.tickerPrice "BTCUSDT" = .error "timeout" ∧
    (formatQuantity envPriceFail [] "BTCUSDT" (1/2)).1 = ("0.5", 1/2) ∧
    decStr (1/2) 8 = "0.50000000" ∧ ("0.5" : String) ≠ "0.50000000" := by
  refine ⟨rfl, by decide, by decide, by decide⟩

/-- C10 amended: `_format_quantity` is total — every internal exception is
caught.  A `_get_symbol_info` failure or a missing `LOT_SIZE` filter yields
the fixed 8-decimal formatting of the unmodified quantity; a price-lookup
failure is caught earlier and processing continues with `current_price = 0`
(normal formatting, not the 8-decimal fallback); and when the final
below-minimum-notional guard fires, its `ValueError` is caught and replaced
by the 8-decimal formatting of the already adjusted quantity. -/
theorem c10_total_formatter_amended (env : ExchangeEnv) (cache : Cache) (s : String) (q : ℚ) :
    (∀ e, (getSymbolInfo env cache s).1 = .error e →
        (formatQuantity env cache s q).1 = (decStr q 8, fixedVal q 8)) ∧
    (∀ si, (getSymbolInfo env cache s).1 = .ok si → (scanFilters si.filters).1 = none →
        (formatQuantity env cache s q).1 = (decStr q 8, fixedVal q 8)) ∧
    (∀ si step minQty notl, (getSymbolInfo env cache s).1 = .ok si →
        scanFilters si.filters = (some (step, minQty), notl) →
        ∀ e, env.tickerPrice s = .error e →
        (formatQuantity env cache s q).1 = normalizeCore step minQty (optMinNotional notl) 0 q) ∧
    (∀ step minQty mn price, guardFires step minQty mn price q →
        normalizeCore step minQty mn price q
          = (decStr (adjustedQty step minQty mn price q) 8,
              fixedVal (adjustedQty step minQty mn price q) 8)) := by
  refine ⟨?_, ?_, ?_, ?_⟩
  · intro e he
    simp only [formatQuantity, formatQuantityRes, he]
  · intro si hsi hscan
    have hpr : scanFilters si.filters = (none, (scanFilters si.filters).2) :=
      Prod.ext hscan rfl
    simp only [formatQuantity, formatQuantityRes, hsi]
    rw [hpr]
  · intro si step minQty notl hsi hscan e hpr
    simp only [formatQuantity, formatQuantityRes, hsi]
    rw [hscan, hpr]
  · intro step minQty mn price hg
    rw [guardFires] at hg
    rw [normalizeCore, if_pos hg]

/-- Witness for C10: a metadata failure returns the 8-decimal fallback. -/
theorem c10_total_formatter_witness :
    (getSymbolInfo envRejectAll [] "BTCUSDT").1 = .error "exchange info unavailable" ∧
    (formatQuantity envRejectAll [] "BTCUSDT" (1/3)).1 = (decStr (1/3) 8, fixedVal (1/3) 8) := by
  refine ⟨rfl, ?_⟩
  exact (c10_total_formatter_amended envRejectAll [] "BTCUSDT" (1/3)).1
    "exchange info unavailable" rfl

end AHF
